import Mathlib

/-!
Verification development for the Vibe Check repository.

The repository's core pipeline (Rolling Buffer, Candidate Detector, Moment
Lifecycle Manager, Clip Assembler) is described in the specification and in
the repository's design document; its implementation is not present among
the source files, so those components are modelled here from the
specification's words.  The frontend API client, approval handlers and the
LiveKit token route are embedded from their TypeScript sources.

All timestamps and scores are modelled as rationals (the sources use float
seconds and normalized [0,1] scores).
-/

namespace VibeCheck

/-- Modelled from the spec (§3 Data Model): one signal sample per extraction
tick: `{ timestamp: float seconds, motion: float, audio_rms: float, buzz: float }`. -/
structure Sample where
  timestamp : ℚ
  motion : ℚ
  audio_rms : ℚ
  buzz : ℚ
  deriving Repr, DecidableEq

/-- Modelled from the spec (§4.2 Rolling Buffer): `Append(sample, frameRef)`;
"Eviction runs on every append: drop entries older than `now - R`."  `now` is
the timestamp of the sample being appended (samples arrive at monotonically
increasing timestamps, §4.1). -/
def appendSample (R : ℚ) (buf : List Sample) (s : Sample) : List Sample :=
  (buf ++ [s]).filter (fun x => decide (s.timestamp - R ≤ x.timestamp))

/-- The buffer resulting from appending a sequence of samples, oldest first,
into an initially empty Rolling Buffer with retention `R`. -/
def buildBuffer (R : ℚ) (xs : List Sample) : List Sample :=
  xs.foldl (appendSample R) []

/-- Modelled from the spec (§4.2): `SliceSignals(start_s, end_s) → ordered
sequence of Sample`, the retained samples whose timestamp lies in
`[start_s, end_s)`. -/
def sliceSignals (buf : List Sample) (start_s end_s : ℚ) : List Sample :=
  buf.filter (fun x => decide (start_s ≤ x.timestamp) && decide (x.timestamp < end_s))

/-- Timestamps of a sample list are strictly increasing. -/
abbrev StrictlyIncreasing (xs : List Sample) : Prop :=
  List.Pairwise (fun a b => a.timestamp < b.timestamp) xs

lemma buildBuffer_append (R : ℚ) (xs : List Sample) (s : Sample) :
    buildBuffer R (xs ++ [s]) = appendSample R (buildBuffer R xs) s := by
  simp [buildBuffer, List.foldl_append]

/-- An older retention filter is absorbed by a more recent one. -/
lemma filter_retention_absorb (R : ℚ) (y s : Sample)
    (hylt : y.timestamp < s.timestamp) (l : List Sample) :
    (l.filter (fun x => decide (y.timestamp - R ≤ x.timestamp))).filter
        (fun x => decide (s.timestamp - R ≤ x.timestamp)) =
      l.filter (fun x => decide (s.timestamp - R ≤ x.timestamp)) := by
  rw [List.filter_filter]
  refine List.filter_congr ?_
  intro x _
  by_cases h : s.timestamp - R ≤ x.timestamp
  · have h2 : y.timestamp - R ≤ x.timestamp := by linarith
    simp [h, h2]
  · simp [h]

/-- After appending a strictly increasing sequence, the buffer is exactly the
input filtered by the retention predicate of the last (most recent) append. -/
lemma buildBuffer_eq_filter (R : ℚ) :
    ∀ (xs : List Sample) (s : Sample), StrictlyIncreasing (xs ++ [s]) →
      buildBuffer R (xs ++ [s]) =
        (xs ++ [s]).filter (fun x => decide (s.timestamp - R ≤ x.timestamp)) := by
  intro xs
  induction xs using List.reverseRecOn with
  | nil =>
      intro s _
      rfl
  | append_singleton ys y ih =>
      intro s hchain
      obtain ⟨hys, -, hrel⟩ := List.pairwise_append.mp hchain
      have hylt : y.timestamp < s.timestamp := by
        exact hrel y (by simp) s (by simp)
      rw [buildBuffer_append, ih y hys, appendSample, List.filter_append,
        filter_retention_absorb R y s hylt, ← List.filter_append]

/-- C4: for Samples appended at strictly increasing timestamps, `SliceSignals`
over a still-retained range `[start_s, end_s)` returns exactly the appended
Samples whose timestamp lies in that range, in timestamp order.  `now` at
query time is the timestamp of the most recent append, and the range is
still retained when its start is no older than `now - R`. -/
theorem sliceSignals_exact (R : ℚ) (xs : List Sample) (s : Sample)
    (start_s end_s : ℚ)
    (hchain : StrictlyIncreasing (xs ++ [s]))
    (hret : s.timestamp - R ≤ start_s) :
    sliceSignals (buildBuffer R (xs ++ [s])) start_s end_s =
      (xs ++ [s]).filter
        (fun x => decide (start_s ≤ x.timestamp) && decide (x.timestamp < end_s)) ∧
    StrictlyIncreasing (sliceSignals (buildBuffer R (xs ++ [s])) start_s end_s) := by
  have hmain : sliceSignals (buildBuffer R (xs ++ [s])) start_s end_s =
      (xs ++ [s]).filter
        (fun x => decide (start_s ≤ x.timestamp) && decide (x.timestamp < end_s)) := by
    rw [sliceSignals, buildBuffer_eq_filter R xs s hchain, List.filter_filter]
    refine List.filter_congr ?_
    intro x _
    by_cases h1 : start_s ≤ x.timestamp
    · have h2 : s.timestamp - R ≤ x.timestamp := by linarith
      simp [h1, h2]
    · simp [h1]
  refine ⟨hmain, ?_⟩
  rw [hmain]
  exact List.Pairwise.sublist (List.filter_sublist _) hchain

/-- Witness for C4 at a concrete run: three samples at times 3, 10, 28 with
retention 90 and query range [4, 14). -/
theorem sliceSignals_exact_witness :
    sliceSignals
        (buildBuffer 90
          ([⟨3, 0, 0, 0⟩, ⟨10, 9/10, 0, 0⟩] ++ [⟨28, 0, 19/20, 0⟩])) 4 14 =
      ([⟨3, 0, 0, 0⟩, ⟨10, 9/10, 0, 0⟩] ++ [⟨28, 0, 19/20, 0⟩] : List Sample).filter
        (fun x => decide (4 ≤ x.timestamp) && decide (x.timestamp < 14)) ∧
    StrictlyIncreasing
      (sliceSignals
        (buildBuffer 90
          ([⟨3, 0, 0, 0⟩, ⟨10, 9/10, 0, 0⟩] ++ [⟨28, 0, 19/20, 0⟩])) 4 14) :=
  sliceSignals_exact 90 [⟨3, 0, 0, 0⟩, ⟨10, 9/10, 0, 0⟩] ⟨28, 0, 19/20, 0⟩ 4 14
    (by norm_num [List.pairwise_append, List.pairwise_cons])
    (by norm_num)

/-- C5: after any sequence of appends at strictly increasing timestamps, no
retained Sample is older than `now - R` (`now` being the most recent appended
timestamp), and eviction is oldest-first: if a sample is gone from the buffer,
every strictly older appended sample is gone as well. -/
theorem buffer_retention_invariant (R : ℚ) (xs : List Sample) (s : Sample)
    (hchain : StrictlyIncreasing (xs ++ [s])) :
    (∀ x ∈ buildBuffer R (xs ++ [s]), ¬ (x.timestamp < s.timestamp - R)) ∧
    (∀ x ∈ xs ++ [s], ∀ y ∈ xs ++ [s], x.timestamp < y.timestamp →
      y ∉ buildBuffer R (xs ++ [s]) → x ∉ buildBuffer R (xs ++ [s])) := by
  rw [buildBuffer_eq_filter R xs s hchain]
  constructor
  · intro x hx
    have := (List.mem_filter.mp hx).2
    simp only [decide_eq_true_eq] at this
    linarith
  · intro x hx y hy hlt hynot hxmem
    have hxpred := (List.mem_filter.mp hxmem).2
    simp only [decide_eq_true_eq] at hxpred
    refine hynot (List.mem_filter.mpr ⟨hy, ?_⟩)
    simp only [decide_eq_true_eq]
    linarith

/-- Witness for C5 at a concrete run: samples at times 3, 10, 200 with
retention 90; the samples at 3 and 10 are evicted, the one at 200 kept. -/
theorem buffer_retention_invariant_witness :
    (∀ x ∈ buildBuffer 90 ([⟨3, 0, 0, 0⟩, ⟨10, 9/10, 0, 0⟩] ++ [⟨200, 0, 0, 0⟩]),
      ¬ (x.timestamp < (200 : ℚ) - 90)) ∧
    (∀ x ∈ [⟨3, 0, 0, 0⟩, ⟨10, 9/10, 0, 0⟩] ++ [(⟨200, 0, 0, 0⟩ : Sample)],
      ∀ y ∈ [⟨3, 0, 0, 0⟩, ⟨10, 9/10, 0, 0⟩] ++ [(⟨200, 0, 0, 0⟩ : Sample)],
        x.timestamp < y.timestamp →
          y ∉ buildBuffer 90 ([⟨3, 0, 0, 0⟩, ⟨10, 9/10, 0, 0⟩] ++ [⟨200, 0, 0, 0⟩]) →
          x ∉ buildBuffer 90 ([⟨3, 0, 0, 0⟩, ⟨10, 9/10, 0, 0⟩] ++ [⟨200, 0, 0, 0⟩])) :=
  buffer_retention_invariant 90 [⟨3, 0, 0, 0⟩, ⟨10, 9/10, 0, 0⟩] ⟨200, 0, 0, 0⟩
    (by norm_num [List.pairwise_append, List.pairwise_cons])

/-- Modelled from the spec (§4.3, §6 Configuration): detector configuration:
score weights `w_m, w_a, w_b`, detection threshold and debounce cooldown. -/
structure DetectorConfig where
  w_m : ℚ
  w_a : ℚ
  w_b : ℚ
  threshold : ℚ
  cooldown : ℚ
  deriving Repr, DecidableEq

/-- Modelled from the spec (§4.3): the composite score
`score(t) = w_m*motion(t) + w_a*audio(t) + w_b*buzz(t)`. -/
def compositeScore (cfg : DetectorConfig) (s : Sample) : ℚ :=
  cfg.w_m * s.motion + cfg.w_a * s.audio_rms + cfg.w_b * s.buzz

/-- One point of the smoothed composite score stream the detector observes
(the spec smooths the composite score over a short trailing window before
thresholding; the detector's trigger/debounce logic consumes that smoothed
stream). -/
structure ScorePoint where
  t : ℚ
  score : ℚ
  deriving Repr, DecidableEq

/-- Modelled from the spec (§4.3): the payload of
`CandidateCreated{candidate_id, t0=t, signals}`. -/
structure Candidate where
  candidate_id : Nat
  t0 : ℚ
  signals : ℚ
  deriving Repr, DecidableEq

/-- Detector state: time of the last trigger (debounce clock), next candidate
id, and the emitted `CandidateCreated` events in order. -/
structure DetectorState where
  lastTrigger : Option ℚ
  nextId : Nat
  emitted : List Candidate
  deriving Repr, DecidableEq

def initDetector : DetectorState := ⟨none, 0, []⟩

/-- Modelled from the spec (§4.3): "fires when `score(t)` crosses a configured
threshold *and* has been below threshold for at least a configured cooldown
duration since the last trigger (debounce)". -/
def canTrigger (cfg : DetectorConfig) (st : DetectorState) (p : ScorePoint) : Bool :=
  decide (cfg.threshold ≤ p.score) &&
    (match st.lastTrigger with
     | none => true
     | some prev => decide (prev + cfg.cooldown ≤ p.t))

def detStep (cfg : DetectorConfig) (st : DetectorState) (p : ScorePoint) : DetectorState :=
  if canTrigger cfg st p then
    { lastTrigger := some p.t
      nextId := st.nextId + 1
      emitted := st.emitted ++ [⟨st.nextId, p.t, p.score⟩] }
  else st

/-- Run the Candidate Detector over a score stream. -/
def runDetector (cfg : DetectorConfig) (ps : List ScorePoint) : DetectorState :=
  ps.foldl (detStep cfg) initDetector

/-- Points strictly below threshold never change the detector state. -/
lemma foldl_detStep_below (cfg : DetectorConfig) (ps : List ScorePoint)
    (hps : ∀ p ∈ ps, p.score < cfg.threshold) :
    ∀ st : DetectorState, List.foldl (detStep cfg) st ps = st := by
  induction ps with
  | nil => intro st; rfl
  | cons p ps ih =>
      intro st
      have hp : ¬ (cfg.threshold ≤ p.score) := not_le.mpr (hps p (by simp))
      have hstep : detStep cfg st p = st := by
        simp [detStep, canTrigger, hp]
      rw [List.foldl_cons, hstep]
      exact ih (fun q hq => hps q (by simp [hq])) st

/-- C3: two trigger-worthy threshold crossings separated by less than the
cooldown duration produce exactly one `CandidateCreated`, for the earliest
crossing; every other point of the stream stays below threshold. -/
theorem detector_debounce (cfg : DetectorConfig)
    (pre mid post : List ScorePoint) (p1 p2 : ScorePoint)
    (hpre : ∀ p ∈ pre, p.score < cfg.threshold)
    (hmid : ∀ p ∈ mid, p.score < cfg.threshold)
    (hpost : ∀ p ∈ post, p.score < cfg.threshold)
    (h1 : cfg.threshold ≤ p1.score)
    (h2 : cfg.threshold ≤ p2.score)
    (hsep : p2.t < p1.t + cfg.cooldown) :
    (runDetector cfg (pre ++ p1 :: (mid ++ p2 :: post))).emitted =
      [⟨0, p1.t, p1.score⟩] := by
  have hstep1 : detStep cfg initDetector p1 =
      ⟨some p1.t, 1, [⟨0, p1.t, p1.score⟩]⟩ := by
    simp [detStep, canTrigger, initDetector, h1]
  have hstep2 : detStep cfg ⟨some p1.t, 1, [⟨0, p1.t, p1.score⟩]⟩ p2 =
      ⟨some p1.t, 1, [⟨0, p1.t, p1.score⟩]⟩ := by
    have hno : ¬ (p1.t + cfg.cooldown ≤ p2.t) := not_le.mpr hsep
    simp [detStep, canTrigger, hno]
  rw [runDetector, List.foldl_append, foldl_detStep_below cfg pre hpre,
    List.foldl_cons, hstep1, List.foldl_append, foldl_detStep_below cfg mid hmid,
    List.foldl_cons, hstep2, foldl_detStep_below cfg post hpost]

/-- Witness for C3: threshold 0.7, cooldown 5s; crossings at t=10 and t=10.2
(score 0.9 each), with below-threshold points before, between and after. -/
theorem detector_debounce_witness :
    (runDetector ⟨1/2, 1/2, 0, 7/10, 5⟩
        ([⟨9, 1/10⟩] ++ ⟨10, 9/10⟩ :: ([⟨101/10, 1/10⟩] ++ ⟨51/5, 9/10⟩ :: [⟨11, 1/10⟩]))).emitted =
      [⟨0, 10, 9/10⟩] :=
  detector_debounce ⟨1/2, 1/2, 0, 7/10, 5⟩
    [⟨9, 1/10⟩] [⟨101/10, 1/10⟩] [⟨11, 1/10⟩] ⟨10, 9/10⟩ ⟨51/5, 9/10⟩
    (by norm_num) (by norm_num) (by norm_num) (by norm_num) (by norm_num)
    (by norm_num)

/-- Modelled from the spec (§3): a labeled clip-recipe segment
`{ label, start_s, end_s }`, in the absolute stream timeline. -/
structure Segment where
  label : String
  start_s : ℚ
  end_s : ℚ
  deriving Repr, DecidableEq

/-- Modelled from the spec (§4.5): the default reaction-first recipe
`reaction_lead = [tr-2, tr+4)`, `play = [t0-6, t0+4)`,
`reaction_button = [tr+4, tr+8)`, concatenated in that order. -/
def defaultRecipe (t0 tr : ℚ) : List Segment :=
  [⟨"reaction_lead", tr - 2, tr + 4⟩,
   ⟨"play", t0 - 6, t0 + 4⟩,
   ⟨"reaction_button", tr + 4, tr + 8⟩]

/-- Clamp one segment into the window `[lo, hi]`. -/
def clampSeg (lo hi : ℚ) (s : Segment) : Segment :=
  ⟨s.label, max s.start_s lo, min s.end_s hi⟩

/-- Modelled from the spec (§4.5): each default-recipe segment is
independently clamped to the retained buffer window and to the stream's
valid range; segments with non-positive clamped duration are dropped; an
all-empty result is reported as `ErrEmptyRecipe`. -/
def assembleRecipe (bufLo bufHi streamLo streamHi t0 tr : ℚ) :
    Except String (List Segment) :=
  let lo := max bufLo streamLo
  let hi := min bufHi streamHi
  let segs := ((defaultRecipe t0 tr).map (clampSeg lo hi)).filter
      (fun s => decide (s.start_s < s.end_s))
  if segs.isEmpty then .error "ErrEmptyRecipe" else .ok segs

/-- C1: whenever the retained buffer window and the stream's valid range
cover the default recipe, the Clip Assembler produces exactly the segments
`reaction_lead = [tr-2, tr+4)`, `play = [t0-6, t0+4)`,
`reaction_button = [tr+4, tr+8)`, in that order. -/
theorem clip_default_recipe (bufLo bufHi streamLo streamHi t0 tr : ℚ)
    (hlo1 : max bufLo streamLo ≤ t0 - 6)
    (hlo2 : max bufLo streamLo ≤ tr - 2)
    (hhi1 : t0 + 4 ≤ min bufHi streamHi)
    (hhi2 : tr + 8 ≤ min bufHi streamHi) :
    assembleRecipe bufLo bufHi streamLo streamHi t0 tr =
      .ok [⟨"reaction_lead", tr - 2, tr + 4⟩,
           ⟨"play", t0 - 6, t0 + 4⟩,
           ⟨"reaction_button", tr + 4, tr + 8⟩] := by
  have h1 : max (tr - 2) (max bufLo streamLo) = tr - 2 := max_eq_left hlo2
  have h2 : min (tr + 4) (min bufHi streamHi) = tr + 4 := min_eq_left (by linarith)
  have h3 : max (t0 - 6) (max bufLo streamLo) = t0 - 6 := max_eq_left hlo1
  have h4 : min (t0 + 4) (min bufHi streamHi) = t0 + 4 := min_eq_left hhi1
  have h5 : max (tr + 4) (max bufLo streamLo) = tr + 4 := max_eq_left (by linarith)
  have h6 : min (tr + 8) (min bufHi streamHi) = tr + 8 := min_eq_left hhi2
  have d1 : tr - 2 < tr + 4 := by linarith
  have d2 : t0 - 6 < t0 + 4 := by linarith
  have d3 : tr + 4 < tr + 8 := by linarith
  simp [assembleRecipe, defaultRecipe, clampSeg, h1, h2, h3, h4, h5, h6,
    d1, d2, d3]

/-- Witness for C1 at the spec's scenario `t0 = 10`, `tr = 28` with window
[0, 100]: the recipe is `reaction_lead=[26,32)`, `play=[4,14)`,
`reaction_button=[32,36)`. -/
theorem clip_default_recipe_witness :
    assembleRecipe 0 100 0 100 10 28 =
      .ok [⟨"reaction_lead", 26, 32⟩, ⟨"play", 4, 14⟩,
           ⟨"reaction_button", 32, 36⟩] := by
  have h := clip_default_recipe 0 100 0 100 10 28
    (by norm_num) (by norm_num) (by norm_num) (by norm_num)
  rw [h]
  norm_num

/-- Modelled from the spec (§4.4): Moment lifecycle states. -/
inductive MState
  | OPEN
  | WAIT_REACTION
  | FINALIZE
  | ANALYZING
  | READY
  | EXPIRED
  | FAILED
  deriving Repr, DecidableEq

/-- The terminal states of the lifecycle. -/
def MState.terminal : MState → Bool
  | .READY => true
  | .EXPIRED => true
  | .FAILED => true
  | _ => false

/-- Modelled from the spec (§4.4, §6 Configuration): lifecycle configuration:
wait window `T_wait`, fallback reaction offset, minimum peak prominence,
per-call analyzer timeout and retry budget. -/
structure LifecycleConfig where
  T_wait : ℚ
  default_offset : ℚ
  minProminence : ℚ
  analyzer_timeout : ℚ
  retries : Nat
  deriving Repr, DecidableEq

/-- Reaction-score points observed within the bounded window
`[t0, t0 + T_wait]`. -/
def windowPoints (t0 T_wait : ℚ) (ps : List ScorePoint) : List ScorePoint :=
  ps.filter (fun p => decide (t0 ≤ p.t) && decide (p.t ≤ t0 + T_wait))

/-- The first point of maximal reaction score in a stream. -/
def bestPeak : List ScorePoint → Option ScorePoint
  | [] => none
  | p :: ps =>
      match bestPeak ps with
      | none => some p
      | some q => if p.score < q.score then some q else some p

/-- Modelled from the spec (§4.4): `tr` is the reaction peak when a peak of
sufficient prominence exists within the wait window; otherwise `tr` falls
back to `t0 + default_offset` exactly. -/
def resolveTr (cfg : LifecycleConfig) (t0 : ℚ) (ps : List ScorePoint) : ℚ :=
  match bestPeak (windowPoints t0 cfg.T_wait ps) with
  | some q => if cfg.minProminence ≤ q.score then q.t else t0 + cfg.default_offset
  | none => t0 + cfg.default_offset

/-- Time spent in `WAIT_REACTION`: up to the accepted peak, or the full
window when the fallback fires. -/
def waitElapsed (cfg : LifecycleConfig) (t0 : ℚ) (ps : List ScorePoint) : ℚ :=
  match bestPeak (windowPoints t0 cfg.T_wait ps) with
  | some q => if cfg.minProminence ≤ q.score then q.t - t0 else cfg.T_wait
  | none => cfg.T_wait

/-- Index of the first successful analyzer attempt. -/
def firstTrue : List Bool → Option Nat
  | [] => none
  | b :: bs => if b then some 0 else (firstTrue bs).map (· + 1)

/-- Modelled from the spec (§4.4): `ANALYZING` runs at most `retries + 1`
attempts against the external Analyzer; the first well-formed response gives
`READY`, exhausting the budget gives `FAILED`.  Returns the resulting state
and the number of attempts spent. -/
def analyzePhase (cfg : LifecycleConfig) (oks : List Bool) : MState × Nat :=
  let attempts := oks.take (cfg.retries + 1)
  match firstTrue attempts with
  | some k => (MState.READY, k + 1)
  | none => (MState.FAILED, attempts.length)

/-- The environment one Moment's state machine runs against: the reaction
score stream, the retained buffer window and the stream's valid range at
finalize time, and the outcomes of successive analyzer attempts. -/
structure MomentEnv where
  rpoints : List ScorePoint
  bufLo : ℚ
  bufHi : ℚ
  streamLo : ℚ
  streamHi : ℚ
  analyzerOk : List Bool
  deriving Repr, DecidableEq

/-- The recorded outcome of one Moment's lifecycle. -/
structure MomentOutcome where
  state : MState
  tr : Option ℚ
  recipe : Option (List Segment)
  reason : Option String
  elapsed : ℚ
  deriving Repr, DecidableEq

/-- Modelled from the spec (§4.4): the full lifecycle of one Moment created
at trigger time `t0`: resolve the reaction within the bounded wait window
(with the `t0 + default_offset` fallback), finalize the clamped recipe —
transitioning to `EXPIRED` when the earliest required timestamp has been
evicted — then run the bounded-retry Analyzer phase. -/
def runMoment (cfg : LifecycleConfig) (env : MomentEnv) (t0 : ℚ) : MomentOutcome :=
  let tr := resolveTr cfg t0 env.rpoints
  let tw := waitElapsed cfg t0 env.rpoints
  if min (t0 - 6) (tr - 2) < env.bufLo then
    { state := .EXPIRED, tr := some tr, recipe := none
      reason := some "ErrRangeEvicted", elapsed := tw }
  else
    match assembleRecipe env.bufLo env.bufHi env.streamLo env.streamHi t0 tr with
    | .error e =>
        { state := .FAILED, tr := some tr, recipe := none
          reason := some e, elapsed := tw }
    | .ok segs =>
        let res := analyzePhase cfg env.analyzerOk
        { state := res.1, tr := some tr, recipe := some segs
          reason := if res.1 = .READY then none else some "AnalyzerError"
          elapsed := tw + cfg.analyzer_timeout * res.2 }

lemma bestPeak_mem {l : List ScorePoint} {q : ScorePoint}
    (h : bestPeak l = some q) : q ∈ l := by
  induction l with
  | nil => simp [bestPeak] at h
  | cons p ps ih =>
      rw [bestPeak] at h
      cases hb : bestPeak ps with
      | none =>
          rw [hb] at h
          simp at h
          simp [h]
      | some r =>
          rw [hb] at h
          by_cases hc : p.score < r.score
          · simp [hc] at h
            subst h
            exact List.mem_cons_of_mem _ (ih hb)
          · simp [hc] at h
            subst h
            exact List.mem_cons_self _ _

/-- When no point of the wait window reaches the minimum prominence, the
reaction time is exactly the fallback `t0 + default_offset`. -/
lemma resolveTr_no_peak (cfg : LifecycleConfig) (t0 : ℚ) (ps : List ScorePoint)
    (h : ∀ p ∈ windowPoints t0 cfg.T_wait ps, p.score < cfg.minProminence) :
    resolveTr cfg t0 ps = t0 + cfg.default_offset := by
  unfold resolveTr
  cases hb : bestPeak (windowPoints t0 cfg.T_wait ps) with
  | none => simp
  | some q =>
      have hq := h q (bestPeak_mem hb)
      simp [not_le.mpr hq]

lemma waitElapsed_le (cfg : LifecycleConfig) (t0 : ℚ) (ps : List ScorePoint) :
    waitElapsed cfg t0 ps ≤ cfg.T_wait := by
  unfold waitElapsed
  cases hb : bestPeak (windowPoints t0 cfg.T_wait ps) with
  | none => simp
  | some q =>
      have hq := bestPeak_mem hb
      have hmem := (List.mem_filter.mp hq).2
      simp only [Bool.and_eq_true, decide_eq_true_eq] at hmem
      by_cases hp : cfg.minProminence ≤ q.score
      · simp only [if_pos hp]
        linarith [hmem.2]
      · simp only [if_neg hp]
        exact le_rfl

lemma firstTrue_lt_length {l : List Bool} {k : Nat}
    (h : firstTrue l = some k) : k < l.length := by
  induction l generalizing k with
  | nil => simp [firstTrue] at h
  | cons b bs ih =>
      rw [firstTrue] at h
      by_cases hb : b = true
      · rw [if_pos hb] at h
        injection h with h
        subst h
        simp
      · rw [if_neg hb] at h
        cases hf : firstTrue bs with
        | none => rw [hf] at h; simp at h
        | some j =>
            rw [hf] at h
            simp only [Option.map_some'] at h
            injection h with h
            subst h
            have := ih hf
            simp
            omega

lemma analyzePhase_spec (cfg : LifecycleConfig) (oks : List Bool) :
    ((analyzePhase cfg oks).1 = MState.READY ∨
      (analyzePhase cfg oks).1 = MState.FAILED) ∧
    (analyzePhase cfg oks).2 ≤ cfg.retries + 1 := by
  unfold analyzePhase
  have hlen : (oks.take (cfg.retries + 1)).length ≤ cfg.retries + 1 := by
    simp [List.length_take]
  cases hf : firstTrue (oks.take (cfg.retries + 1)) with
  | none => simp [hf, hlen]
  | some k =>
      have hk := firstTrue_lt_length hf
      simp [hf]
      omega

/-- Every run of a Moment's state machine lands in a terminal state, and a
non-`READY` terminal outcome always records a reason. -/
lemma runMoment_cases (cfg : LifecycleConfig) (env : MomentEnv) (t0 : ℚ) :
    ((runMoment cfg env t0).state = .READY ∨
      (runMoment cfg env t0).state = .EXPIRED ∨
      (runMoment cfg env t0).state = .FAILED) ∧
    ((runMoment cfg env t0).state ≠ .READY → (runMoment cfg env t0).reason ≠ none) := by
  unfold runMoment
  by_cases hev : min (t0 - 6) (resolveTr cfg t0 env.rpoints - 2) < env.bufLo
  · simp [hev]
  · cases hasm : assembleRecipe env.bufLo env.bufHi env.streamLo env.streamHi t0
        (resolveTr cfg t0 env.rpoints) with
    | error e => simp [hev, hasm]
    | ok segs =>
        rcases (analyzePhase_spec cfg env.analyzerOk).1 with hst | hst
        · simp [hev, hasm, hst]
        · simp [hev, hasm, hst]

/-- The recorded reaction time of every run is the resolved `tr`. -/
lemma runMoment_tr (cfg : LifecycleConfig) (env : MomentEnv) (t0 : ℚ) :
    (runMoment cfg env t0).tr = some (resolveTr cfg t0 env.rpoints) := by
  unfold runMoment
  by_cases hev : min (t0 - 6) (resolveTr cfg t0 env.rpoints - 2) < env.bufLo
  · simp [hev]
  · cases hasm : assembleRecipe env.bufLo env.bufHi env.streamLo env.streamHi t0
        (resolveTr cfg t0 env.rpoints) with
    | error e => simp [hev, hasm]
    | ok segs => simp [hev, hasm]

/-- The total elapsed time of a run is bounded by the wait window plus the
analyzer budget. -/
lemma runMoment_elapsed_le (cfg : LifecycleConfig) (env : MomentEnv) (t0 : ℚ)
    (hT : 0 ≤ cfg.T_wait) (hA : 0 ≤ cfg.analyzer_timeout) :
    (runMoment cfg env t0).elapsed ≤
      cfg.T_wait + cfg.analyzer_timeout * (cfg.retries + 1) := by
  have hw := waitElapsed_le cfg t0 env.rpoints
  have hbudget : (0 : ℚ) ≤ cfg.analyzer_timeout * (cfg.retries + 1) := by
    apply mul_nonneg hA
    positivity
  unfold runMoment
  by_cases hev : min (t0 - 6) (resolveTr cfg t0 env.rpoints - 2) < env.bufLo
  · simp only [hev, if_true, if_pos]
    linarith
  · cases hasm : assembleRecipe env.bufLo env.bufHi env.streamLo env.streamHi t0
        (resolveTr cfg t0 env.rpoints) with
    | error e =>
        simp only [hev, if_false, if_neg, not_false_iff, hasm]
        linarith
    | ok segs =>
        simp only [hev, if_false, if_neg, not_false_iff, hasm]
        have hn := (analyzePhase_spec cfg env.analyzerOk).2
        have hc : ((analyzePhase cfg env.analyzerOk).2 : ℚ) ≤
            (cfg.retries : ℚ) + 1 := by
          exact_mod_cast hn
        have := mul_le_mul_of_nonneg_left hc hA
        linarith

/-- C6: every Moment reaches exactly one terminal state among
`READY`, `EXPIRED`, `FAILED`, within `T_wait + analyzer_timeout*(retries+1)`,
and a non-`READY` outcome always carries a recorded reason — no Candidate is
silently forgotten. -/
theorem moment_totality (cfg : LifecycleConfig) (env : MomentEnv) (t0 : ℚ)
    (hT : 0 ≤ cfg.T_wait) (hA : 0 ≤ cfg.analyzer_timeout) :
    ((runMoment cfg env t0).state = .READY ∨
      (runMoment cfg env t0).state = .EXPIRED ∨
      (runMoment cfg env t0).state = .FAILED) ∧
    (runMoment cfg env t0).elapsed ≤
      cfg.T_wait + cfg.analyzer_timeout * (cfg.retries + 1) ∧
    ((runMoment cfg env t0).state ≠ .READY → (runMoment cfg env t0).reason ≠ none) :=
  ⟨(runMoment_cases cfg env t0).1,
   runMoment_elapsed_le cfg env t0 hT hA,
   (runMoment_cases cfg env t0).2⟩

/-- A concrete lifecycle configuration: `T_wait = 40s`, fallback offset 10s,
minimum prominence 0.7, analyzer timeout 5s, 2 retries. -/
def demoCfg : LifecycleConfig := ⟨40, 10, 7/10, 5, 2⟩

/-- A fully-covered environment with no reaction points and one successful
analyzer attempt. -/
def demoEnv : MomentEnv := ⟨[], 0, 100, 0, 100, [true]⟩

/-- Witness for C6 at a concrete run: `t0 = 10` against `demoCfg`/`demoEnv`;
the bound is `40 + 5*3 = 55`. -/
theorem moment_totality_witness :
    ((runMoment demoCfg demoEnv 10).state = .READY ∨
      (runMoment demoCfg demoEnv 10).state = .EXPIRED ∨
      (runMoment demoCfg demoEnv 10).state = .FAILED) ∧
    (runMoment demoCfg demoEnv 10).elapsed ≤ 55 ∧
    ((runMoment demoCfg demoEnv 10).state ≠ .READY →
      (runMoment demoCfg demoEnv 10).reason ≠ none) := by
  have h := moment_totality demoCfg demoEnv 10
    (by norm_num [demoCfg]) (by norm_num [demoCfg])
  refine ⟨h.1, ?_, h.2.2⟩
  have hb := h.2.1
  norm_num [demoCfg] at hb
  exact hb

/-- C2: when no reaction-score point within the wait window `[t0, t0+T_wait]`
reaches the minimum prominence, the Moment still runs to a terminal state and
its reaction time is exactly `tr = t0 + default_offset`. -/
theorem reaction_fallback (cfg : LifecycleConfig) (env : MomentEnv) (t0 : ℚ)
    (hnopeak : ∀ p ∈ windowPoints t0 cfg.T_wait env.rpoints,
      p.score < cfg.minProminence) :
    (runMoment cfg env t0).tr = some (t0 + cfg.default_offset) ∧
    (runMoment cfg env t0).state.terminal = true := by
  constructor
  · rw [runMoment_tr, resolveTr_no_peak cfg t0 env.rpoints hnopeak]
  · rcases (runMoment_cases cfg env t0).1 with h | h | h <;>
      simp [h, MState.terminal]

/-- An environment whose only reaction point (score 0.5 at t=15) stays below
the minimum prominence 0.7. -/
def demoEnvWeak : MomentEnv := ⟨[⟨15, 1/2⟩], 0, 100, 0, 100, [true]⟩

/-- Witness for C2: with no qualifying peak, `tr = 10 + 10 = 20` and the run
is terminal. -/
theorem reaction_fallback_witness :
    (runMoment demoCfg demoEnvWeak 10).tr = some 20 ∧
    (runMoment demoCfg demoEnvWeak 10).state.terminal = true := by
  have h := reaction_fallback demoCfg demoEnvWeak 10 (by
    intro p hp
    have hpm := (List.mem_filter.mp hp).1
    simp [demoEnvWeak] at hpm
    subst hpm
    norm_num [demoCfg])
  refine ⟨?_, h.2⟩
  have ht := h.1
  norm_num [demoCfg] at ht
  exact ht

/-- C7: when the earliest timestamp the recipe requires
(`min (t0-6) (tr-2)`) has already been evicted from the Rolling Buffer, the
Moment transitions to `EXPIRED` with reason `ErrRangeEvicted` and no clip is
assembled, whatever the analyzer would have answered. -/
theorem finalize_evicted_expired (cfg : LifecycleConfig) (env : MomentEnv)
    (t0 : ℚ)
    (hev : min (t0 - 6) (resolveTr cfg t0 env.rpoints - 2) < env.bufLo) :
    (runMoment cfg env t0).state = .EXPIRED ∧
    (runMoment cfg env t0).recipe = none ∧
    (runMoment cfg env t0).reason = some "ErrRangeEvicted" := by
  unfold runMoment
  simp [hev]

/-- The spec's eviction scenario: retention 90s, finalize requested after
`t = 200`, so the oldest retained timestamp is 110. -/
def demoEnvEvicted : MomentEnv := ⟨[], 110, 200, 0, 1000, [true]⟩

/-- Witness for C7 at the spec's scenario: `t0 = 10` (`play = [4, 14)`)
finalized after `t = 200` with retention 90s expires. -/
theorem finalize_evicted_expired_witness :
    (runMoment demoCfg demoEnvEvicted 10).state = .EXPIRED ∧
    (runMoment demoCfg demoEnvEvicted 10).recipe = none ∧
    (runMoment demoCfg demoEnvEvicted 10).reason = some "ErrRangeEvicted" :=
  finalize_evicted_expired demoCfg demoEnvEvicted 10
    (by norm_num [resolveTr, windowPoints, bestPeak, demoCfg, demoEnvEvicted])

/-- The acting role in the war room UI
(`src/frontend/app/producer/page.tsx`, `ApprovalEvent.by`). -/
inductive Role
  | exec
  | producer
  | social
  deriving Repr, DecidableEq

/-- From `src/frontend/app/producer/page.tsx` (`interface ApprovalEvent`):
the fixed wire schema `{type, moment_id, by, at}`.  `by` and `at` are Lean
keywords, so those fields are embedded as `byRole` and `at_s`. -/
structure ApprovalEvent where
  type : String
  moment_id : String
  byRole : Role
  at_s : ℚ
  deriving Repr, DecidableEq

/-- From `src/frontend/components/MomentCard.tsx` `handleApprove` (and the
exec page's `handleApprove`): the event passed to `api.approveMoment` when a
moment is approved; `now` is `Date.now() / 1000`. -/
def handleApprove (moment_id : String) (role : Role) (now : ℚ) : ApprovalEvent :=
  { type := "moment.approved", moment_id := moment_id, byRole := role, at_s := now }

/-- From `src/frontend/components/MomentCard.tsx` `handleHold` (and the exec
page's `handleHold`): the event passed to `api.approveMoment` when a moment
is held. -/
def handleHold (moment_id : String) (role : Role) (now : ℚ) : ApprovalEvent :=
  { type := "moment.held", moment_id := moment_id, byRole := role, at_s := now }

/-- C8: every approve / hold action emits an event of the fixed wire schema:
type exactly `moment.approved` / `moment.held`, carrying the acted-on
moment's id, the acting role and the wall-clock time of the action. -/
theorem approval_event_schema (m : String) (role : Role) (now : ℚ) :
    (handleApprove m role now).type = "moment.approved" ∧
    (handleApprove m role now).moment_id = m ∧
    (handleApprove m role now).byRole = role ∧
    (handleApprove m role now).at_s = now ∧
    (handleHold m role now).type = "moment.held" ∧
    (handleHold m role now).moment_id = m ∧
    (handleHold m role now).byRole = role ∧
    (handleHold m role now).at_s = now :=
  ⟨rfl, rfl, rfl, rfl, rfl, rfl, rfl, rfl⟩

/-- A minimal JSON value model for the frontend API client. -/
inductive Json
  | null
  | bool (b : Bool)
  | num (q : ℚ)
  | str (s : String)
  | arr (elems : List Json)
  | obj (fields : List (String × Json))

/-- Field lookup on a JSON object (`data.moments`): `none` when the value is
not an object or lacks the field (JS `undefined`). -/
def Json.getField : Json → String → Option Json
  | .obj fields, k => fields.lookup k
  | _, _ => none

/-- JavaScript truthiness of a JSON value, as `data.moments || []` tests it. -/
def Json.truthy : Json → Bool
  | .null => false
  | .bool b => b
  | .num q => decide (q ≠ 0)
  | .str s => decide (s ≠ "")
  | .arr _ => true
  | .obj _ => true

/-- An HTTP response as the client sees it: `response.ok` and the parsed
JSON body. -/
structure HttpResponse where
  ok : Bool
  body : Json

/-- From `src/frontend/lib/api.ts` `VibeCheckAPI.getMoments`: a non-ok
response throws `Failed to fetch moments`; otherwise the result is
`data.moments || []`. -/
def getMoments (resp : HttpResponse) : Except String Json :=
  if resp.ok then
    let m := (resp.body.getField "moments").getD Json.null
    .ok (if m.truthy then m else Json.arr [])
  else
    .error "Failed to fetch moments"

/-- C9: on an ok response `getMoments` returns the body's `moments` array,
the empty array when that field is absent or null, and on a non-ok response
it throws instead of returning a value. -/
theorem getMoments_spec (resp : HttpResponse) :
    (∀ xs, resp.ok = true → resp.body.getField "moments" = some (Json.arr xs) →
      getMoments resp = .ok (Json.arr xs)) ∧
    (resp.ok = true →
      (resp.body.getField "moments" = none ∨
        resp.body.getField "moments" = some Json.null) →
      getMoments resp = .ok (Json.arr [])) ∧
    (resp.ok = false → getMoments resp = .error "Failed to fetch moments") := by
  refine ⟨?_, ?_, ?_⟩
  · intro xs hok hfield
    simp [getMoments, hok, hfield, Json.truthy]
  · intro hok hfield
    rcases hfield with h | h <;> simp [getMoments, hok, h, Json.truthy]
  · intro hok
    simp [getMoments, hok]

/-- Witness for C9: a present array field, an absent field, and a non-ok
response. -/
theorem getMoments_spec_witness :
    getMoments ⟨true, Json.obj [("moments", Json.arr [Json.num 1])]⟩ =
      .ok (Json.arr [Json.num 1]) ∧
    getMoments ⟨true, Json.obj []⟩ = .ok (Json.arr []) ∧
    getMoments ⟨false, Json.null⟩ = .error "Failed to fetch moments" :=
  ⟨(getMoments_spec ⟨true, Json.obj [("moments", Json.arr [Json.num 1])]⟩).1
      [Json.num 1] rfl rfl,
   (getMoments_spec ⟨true, Json.obj []⟩).2.1 rfl (Or.inl rfl),
   (getMoments_spec ⟨false, Json.null⟩).2.2 rfl⟩

/-- The parsed JSON body of a token request; an absent field is `none`
(JS `undefined`). -/
structure TokenBody where
  roomName : Option String
  identity : Option String
  deriving Repr, DecidableEq

/-- JS falsiness of an optional string field (`!roomName`): `undefined`,
`null` and the empty string are falsy. -/
def strFalsy : Option String → Bool
  | none => true
  | some s => decide (s = "")

/-- The permission grant handed to `at.addGrant` in the route
(`src/unnamed/part_003`). -/
structure Grant where
  roomJoin : Bool
  room : String
  canPublish : Bool
  canSubscribe : Bool
  canPublishData : Bool
  deriving Repr, DecidableEq

/-- The route's observable outcome: HTTP status, the returned token or error
message, and the grant used for token generation when one was built. -/
structure RouteResult where
  status : Nat
  token : Option String
  errorMsg : Option String
  grant : Option Grant
  deriving Repr, DecidableEq

/-- From `src/unnamed/part_003` (the LiveKit token route `POST`): a body
missing `roomName` or `identity` is rejected with 400 before any token is
made; otherwise the route grants join/publish/subscribe (and data publish)
on the requested room and returns 200 with the JWT, or 500 when generation
throws.  `gen` stands for `AccessToken(...).toJwt()`: `.ok` is the returned
JWT, `.error` a thrown exception. -/
def livekitTokenPOST (body : TokenBody)
    (gen : String → Grant → Except String String) : RouteResult :=
  if strFalsy body.roomName || strFalsy body.identity then
    { status := 400, token := none
      errorMsg := some "roomName and identity are required", grant := none }
  else
    let room := body.roomName.getD ""
    let ident := body.identity.getD ""
    let g : Grant := ⟨true, room, true, true, true⟩
    match gen ident g with
    | .ok tok =>
        { status := 200, token := some tok, errorMsg := none, grant := some g }
    | .error _ =>
        { status := 500, token := none
          errorMsg := some "Failed to generate token", grant := some g }

/-- C10: a POST body missing `roomName` or `identity` (absent or empty) gets
HTTP 400 with an error and no token and no grant is built; a body providing
both gets either HTTP 200 with the generated JWT under a grant carrying
join/publish/subscribe on exactly the requested room, or HTTP 500 when token
generation throws. -/
theorem livekit_token_route_spec (body : TokenBody)
    (gen : String → Grant → Except String String) :
    ((strFalsy body.roomName || strFalsy body.identity) = true →
      livekitTokenPOST body gen =
        ⟨400, none, some "roomName and identity are required", none⟩) ∧
    (∀ room ident, body.roomName = some room → body.identity = some ident →
      room ≠ "" → ident ≠ "" →
      ((∀ tok, gen ident ⟨true, room, true, true, true⟩ = .ok tok →
          livekitTokenPOST body gen =
            ⟨200, some tok, none, some ⟨true, room, true, true, true⟩⟩) ∧
        (∀ e, gen ident ⟨true, room, true, true, true⟩ = .error e →
          livekitTokenPOST body gen =
            ⟨500, none, some "Failed to generate token",
              some ⟨true, room, true, true, true⟩⟩))) := by
  constructor
  · intro h
    simp [livekitTokenPOST, h]
  · intro room ident hr hi hroom hident
    have hfalsy : (strFalsy body.roomName || strFalsy body.identity) = false := by
      simp [strFalsy, hr, hi, hroom, hident]
    constructor
    · intro tok htok
      simp [livekitTokenPOST, hfalsy, hr, hi, htok, strFalsy, hroom, hident]
    · intro e he
      simp [livekitTokenPOST, hfalsy, hr, hi, he, strFalsy, hroom, hident]

/-- Witness for C10: a missing `roomName` is rejected with 400; a complete
body yields 200 with the JWT, and 500 when generation throws. -/
theorem livekit_token_route_spec_witness :
    livekitTokenPOST ⟨none, some "alice"⟩ (fun _ _ => .ok "jwt1") =
      ⟨400, none, some "roomName and identity are required", none⟩ ∧
    livekitTokenPOST ⟨some "warroom", some "alice"⟩ (fun _ _ => .ok "jwt1") =
      ⟨200, some "jwt1", none, some ⟨true, "warroom", true, true, true⟩⟩ ∧
    livekitTokenPOST ⟨some "warroom", some "alice"⟩ (fun _ _ => .error "boom") =
      ⟨500, none, some "Failed to generate token",
        some ⟨true, "warroom", true, true, true⟩⟩ :=
  ⟨(livekit_token_route_spec ⟨none, some "alice"⟩ (fun _ _ => .ok "jwt1")).1 rfl,
   ((livekit_token_route_spec ⟨some "warroom", some "alice"⟩
        (fun _ _ => .ok "jwt1")).2 "warroom" "alice" rfl rfl
      (by decide) (by decide)).1 "jwt1" rfl,
   ((livekit_token_route_spec ⟨some "warroom", some "alice"⟩
        (fun _ _ => .error "boom")).2 "warroom" "alice" rfl rfl
      (by decide) (by decide)).2 "boom" rfl⟩

end VibeCheck
